import Mathlib

/-!
Shallow embedding of the dual-lane transaction race engine of the
flashblocks mini app (source: `src/lib/demo-tx.ts`, latest revision, the
demo API routes, and the `ConfirmationRaceDemo` client component).

Conventions used throughout:
* JS strings are embedded as `List Char`; JS numbers appearing as
  millisecond timestamps are embedded as `Int`/`ℚ`, latencies as `ℚ`.
* Hex quantities (`viem`'s `Hex`) that the source immediately converts
  with `hexToNumber` are embedded as `Option Nat` (null ↦ `none`).
* Network calls are embedded by passing the RPC query results as explicit
  arguments to the otherwise pure confirmation/submission logic.
-/

namespace DemoTx

/-- `type DemoLane = 'flashblocks' | 'normal'` from `demo-tx.ts`. -/
inductive DemoLane where
  | flashblocks
  | normal
deriving DecidableEq, Repr

/-- The confirmation-method tag union of the source
(`'pending' | 'latest' | 'receipt' | 'none'`). -/
inductive ConfirmationMethod where
  | pending
  | latest
  | receipt
  | none
deriving DecidableEq, Repr

/-- The verdict object returned by `checkLaneConfirmation`:
`{ confirmed, method, blockNumber }`. -/
structure ConfirmationVerdict where
  confirmed : Bool
  method : ConfirmationMethod
  blockNumber : Option Nat
deriving DecidableEq, Repr

/-- `SPOOF_CONFIRMATION_DELAY_MS_BY_LANE` (latest revision:
flashblocks 800ms, normal 2500ms). -/
def SPOOF_CONFIRMATION_DELAY_MS_BY_LANE : DemoLane → Nat
  | DemoLane.flashblocks => 800
  | DemoLane.normal => 2500

/-- `SPOOF_METHOD_BY_LANE` (latest revision: flashblocks reports
`receipt`, normal reports `latest`). -/
def SPOOF_METHOD_BY_LANE : DemoLane → ConfirmationMethod
  | DemoLane.flashblocks => ConfirmationMethod.receipt
  | DemoLane.normal => ConfirmationMethod.latest

/-- `SPOOF_LANE_CODE`: the two-hex-char lane tag put at the front of a
spoof transaction hash. -/
def SPOOF_LANE_CODE : DemoLane → List Char
  | DemoLane.flashblocks => ("f1").toList
  | DemoLane.normal => ("f2").toList

/-- `SPOOF_FROM_BY_LANE`: the synthetic from-address reported by a spoof
send. -/
def SPOOF_FROM_BY_LANE : DemoLane → List Char
  | DemoLane.flashblocks => ("0x00000000000000000000000000000000000000F1").toList
  | DemoLane.normal => ("0x00000000000000000000000000000000000000F2").toList

/-! ## JS string/number primitives used by the spoof hash codec -/

/-- Value of one hex digit character, case insensitive, as recognised by
JS `parseInt(·, 16)`; `none` for a non-digit. -/
def hexCharValue (c : Char) : Option Nat :=
  if '0' ≤ c ∧ c ≤ '9' then some (c.toNat - 48)
  else if 'a' ≤ c ∧ c ≤ 'f' then some (c.toNat - 87)
  else if 'A' ≤ c ∧ c ≤ 'F' then some (c.toNat - 55)
  else Option.none

/-- Base-16 digit extraction with explicit fuel (structural recursion,
so that the definition evaluates inside the kernel). -/
def natToHexDigitsRevFuel : Nat → Nat → List Nat
  | 0, _ => []
  | fuel + 1, n => if n = 0 then [] else (n % 16) :: natToHexDigitsRevFuel fuel (n / 16)

/-- Base-16 digit list of a natural number, least significant first
(helper for `Number.prototype.toString(16)`); `n` itself is always
enough fuel. -/
def natToHexDigitsRev (n : Nat) : List Nat :=
  natToHexDigitsRevFuel n n

/-- JS `n.toString(16)` for a non-negative integer: most significant
digit first, lowercase, and `"0"` for zero. -/
def jsNatToStringHex (n : Nat) : List Char :=
  if n = 0 then ('0' :: [])
  else ((natToHexDigitsRev n).reverse).map Nat.digitChar

/-- JS `i.toString(16)` for an integer (negative values render with a
leading minus sign). -/
def jsNumToStringHex (i : Int) : List Char :=
  if i < 0 then '-' :: jsNatToStringHex i.natAbs else jsNatToStringHex i.toNat

/-- JS `s.padStart(targetLength, padChar)` for a single pad character. -/
def jsPadStart (targetLength : Nat) (padChar : Char) (s : List Char) : List Char :=
  List.replicate (targetLength - s.length) padChar ++ s

/-- JS `s.slice(-count)`: the last `count` characters (the whole string
when it is shorter than `count`). -/
def jsSliceLast (count : Nat) (s : List Char) : List Char :=
  s.drop (s.length - count)

/-- The `"0x"` / `"0X"` stripping performed by JS `parseInt(·, 16)`. -/
def stripHexPrefixChars (s : List Char) : List Char :=
  match s with
  | c0 :: c1 :: rest =>
    if c0 = '0' ∧ (c1 = 'x' ∨ c1 = 'X') then rest else c0 :: c1 :: rest
  | _ => s

/-- Digit-consuming loop of JS `parseInt(·, 16)`: accumulates the value
of the maximal leading run of hex digits. -/
def parseIntHexAux : List Char → Nat → Nat
  | [], acc => acc
  | c :: rest, acc =>
    match hexCharValue c with
    | some d => parseIntHexAux rest (16 * acc + d)
    | Option.none => acc

/-- Unsigned core of JS `parseInt(·, 16)`: strips an optional `0x`
prefix, then requires at least one leading hex digit (`none` models the
`NaN` result). -/
def jsParseIntHexCore (s : List Char) : Option Nat :=
  match stripHexPrefixChars s with
  | [] => Option.none
  | c :: rest =>
    if (hexCharValue c).isSome then some (parseIntHexAux (c :: rest) 0) else Option.none

/-- JS `Number.parseInt(s, 16)` on an already-trimmed string: optional
sign, optional `0x` prefix, maximal run of hex digits; `none` models
`NaN` (the inputs reaching this function are API-validated hex strings,
so whitespace trimming never fires and is omitted). -/
def jsParseIntHex (s : List Char) : Option Int :=
  match s with
  | [] => Option.none
  | c :: rest =>
    if c = '-' then (jsParseIntHexCore rest).map (fun k => -(k : Int))
    else if c = '+' then (jsParseIntHexCore rest).map (fun k => (k : Int))
    else (jsParseIntHexCore (c :: rest)).map (fun k => (k : Int))

/-! ## Spoof transaction hash codec (`buildSpoofTxHash` / `parseSpoofTxHash`) -/

/-- `buildSpoofTxHash(lane, createdAtMs)`: `0x` + two-char lane code +
`Math.floor(createdAtMs).toString(16).padStart(12,'0').slice(-12)` +
25 random bytes in hex (the random suffix is passed explicitly here). -/
def buildSpoofTxHash (lane : DemoLane) (createdAtMs : ℚ) (randomHex : List Char) : List Char :=
  let timestampHex := jsSliceLast 12 (jsPadStart 12 '0' (jsNumToStringHex (Int.floor createdAtMs)))
  '0' :: 'x' :: (SPOOF_LANE_CODE lane ++ timestampHex ++ randomHex)

/-- The record recovered from a spoof transaction hash. -/
structure SpoofTx where
  lane : DemoLane
  createdAtMs : Int
deriving DecidableEq, Repr

/-- `parseSpoofTxHash(txHash)`: lowercases the hash body, reads the
two-char lane code and the 12-char timestamp field; `none` when the lane
code is unknown or the timestamp parses to `NaN`. -/
def parseSpoofTxHash (txHash : List Char) : Option SpoofTx :=
  let raw := (txHash.drop 2).map Char.toLower
  let laneCode := raw.take 2
  let timestampHex := (raw.drop 2).take 12
  let laneOpt : Option DemoLane :=
    if laneCode = ("f1").toList then some DemoLane.flashblocks
    else if laneCode = ("f2").toList then some DemoLane.normal
    else Option.none
  match laneOpt with
  | Option.none => Option.none
  | some lane =>
    match jsParseIntHex timestampHex with
    | Option.none => Option.none
    | some createdAtMs => some ⟨lane, createdAtMs⟩

/-- The transaction handle `{ txHash, from }` returned by a send. -/
structure TransactionHandle where
  txHash : List Char
  fromAddress : List Char
deriving DecidableEq, Repr

/-- Spoof branch of `sendLaneTransaction`: builds a spoof hash stamped
with the current time (`Date.now()`, passed explicitly) and the lane's
synthetic from-address. -/
def sendLaneTransactionSpoof (lane : DemoLane) (nowMs : ℚ) (randomHex : List Char) :
    TransactionHandle :=
  { txHash := buildSpoofTxHash lane nowMs randomHex
    fromAddress := SPOOF_FROM_BY_LANE lane }

/-- Spoof branch of `checkLaneConfirmation` (latest revision): decode the
hash; unknown or mismatched lane is unconfirmed; otherwise confirmed
exactly once the per-lane spoof delay has elapsed since the encoded
creation time, reporting the lane's spoof method tag. -/
def checkLaneConfirmationSpoof (lane : DemoLane) (txHash : List Char) (nowMs : Int) :
    ConfirmationVerdict :=
  match parseSpoofTxHash txHash with
  | Option.none => ⟨false, ConfirmationMethod.none, Option.none⟩
  | some spoofTx =>
    if spoofTx.lane ≠ lane then ⟨false, ConfirmationMethod.none, Option.none⟩
    else if nowMs - spoofTx.createdAtMs < (SPOOF_CONFIRMATION_DELAY_MS_BY_LANE lane : Int) then
      ⟨false, ConfirmationMethod.none, Option.none⟩
    else ⟨true, SPOOF_METHOD_BY_LANE lane, Option.none⟩

/-! ## Live confirmation strategies (latest revision of `checkLaneConfirmation`)

The RPC query results (`eth_getTransactionReceipt`, `eth_getBlockByNumber`)
are passed as explicit arguments. -/

/-- `RpcTransactionReceipt` (`{ blockNumber: Hex | null }`, the hex block
number identified with its `hexToNumber` value). -/
structure RpcTransactionReceipt where
  blockNumber : Option Nat
deriving DecidableEq, Repr

/-- `RpcPendingBlock` (`{ number: Hex | null, transactions: Hex[] }`). -/
structure RpcPendingBlock where
  number : Option Nat
  transactions : List (List Char)
deriving DecidableEq, Repr

/-- Live branch of `checkLaneConfirmation` (latest revision): the
flashblocks lane polls the transaction receipt and is confirmed whenever
a receipt object exists; the normal lane scans the `latest` block's
transaction list for the hash (case-insensitive). -/
def checkLaneConfirmationLive (lane : DemoLane) (txHash : List Char)
    (receipt : Option RpcTransactionReceipt) (latestBlock : Option RpcPendingBlock) :
    ConfirmationVerdict :=
  match lane with
  | DemoLane.flashblocks =>
    match receipt with
    | some r => ⟨true, ConfirmationMethod.receipt, r.blockNumber⟩
    | Option.none => ⟨false, ConfirmationMethod.none, Option.none⟩
  | DemoLane.normal =>
    let inBlock :=
      match latestBlock with
      | some b => b.transactions.any (fun candidate => candidate.map Char.toLower = txHash.map Char.toLower)
      | Option.none => false
    if inBlock then ⟨true, ConfirmationMethod.latest, latestBlock.bind RpcPendingBlock.number⟩
    else ⟨false, ConfirmationMethod.none, Option.none⟩

/-! ## Error classification (`isNonceSyncError`, `isInsufficientFundsError`) -/

/-- JS `needle` is a leading segment of the second list. -/
def startsWithSeq : List Char → List Char → Bool
  | [], _ => true
  | _ :: _, [] => false
  | c :: cs, d :: ds => c = d && startsWithSeq cs ds

/-- JS `hay.includes(needle)`. -/
def jsIncludes (hay needle : List Char) : Bool :=
  match hay with
  | [] => startsWithSeq needle []
  | c :: rest => startsWithSeq needle (c :: rest) || jsIncludes rest needle

/-- A JS thrown value: either an `Error` instance carrying a message or
some other thrown value. -/
inductive JsThrown where
  | errorObj (message : List Char)
  | nonError
deriving DecidableEq

/-- `isNonceSyncError`: the thrown value is an `Error` whose lowercased
message contains one of the three nonce-desynchronization markers. -/
def isNonceSyncError (e : JsThrown) : Bool :=
  match e with
  | JsThrown.nonError => false
  | JsThrown.errorObj msg =>
    let message := msg.map Char.toLower
    jsIncludes message ("nonce provided for the transaction is lower").toList ||
    jsIncludes message ("nonce too low").toList ||
    jsIncludes message ("already known").toList

/-- `isInsufficientFundsError` (from the `ConfirmationRaceDemo`
component): lowercased message contains one of the three
balance-exhaustion markers. -/
def isInsufficientFundsError (message : List Char) : Bool :=
  let normalized := message.map Char.toLower
  jsIncludes normalized ("insufficient funds").toList ||
  jsIncludes normalized ("exceeds the balance of the account").toList ||
  jsIncludes normalized ("gas * price + value").toList

/-! ## Live submit path: nonce recovery (`sendLaneTransaction`, latest revision) -/

/-- Bookkeeping for one pass through the enqueued send closure: how many
times the underlying `sendTransaction` ran and how many times
`nonceManager.reset` ran. -/
structure SendAttemptLog where
  sendCalls : Nat
  nonceResets : Nat
deriving DecidableEq, Repr

/-- The closure enqueued by the live branch of `sendLaneTransaction`:
try the send; rethrow any non-nonce-class failure untouched; on a
nonce-class failure reset the nonce manager and retry exactly once,
surfacing whatever the retry produces. The two underlying attempt
outcomes are passed explicitly. -/
def sendWithNonceRecovery (attempt1 attempt2 : Except JsThrown (List Char)) :
    Except JsThrown (List Char) × SendAttemptLog :=
  match attempt1 with
  | Except.ok txHash => (Except.ok txHash, ⟨1, 0⟩)
  | Except.error e =>
    if isNonceSyncError e then (attempt2, ⟨2, 1⟩)
    else (Except.error e, ⟨1, 0⟩)

/-! ## Serialized send queue (`enqueueSendTransaction`)

The source serializes sends through a promise chain
(`sendTransactionQueue.then(operation, operation)`); under the
single-threaded JS event loop this runs the enqueued operations strictly
one after another in enqueue order. The model below generates the
execution trace of `count` enqueued sends: each send starts, consumes
the signer's next nonce, and finishes before the next send starts. -/

/-- Modelled from the spec: `NonceState` — process-wide state for the
shared signer tracking the next nonce to use (the concrete counter lives
in the external `viem` nonce manager, which is not part of this
repository's sources). -/
structure NonceState where
  next : Nat
deriving DecidableEq, Repr

/-- An observable event of the serialized send queue. -/
inductive QueueEvent where
  | sendStart (index nonce : Nat)
  | sendFinish (index nonce : Nat)
deriving DecidableEq, Repr

/-- Whether an event is the start of a send. -/
def isStartEvent : QueueEvent → Bool
  | QueueEvent.sendStart _ _ => true
  | QueueEvent.sendFinish _ _ => false

/-- Whether an event is the completion of a send. -/
def isFinishEvent : QueueEvent → Bool
  | QueueEvent.sendStart _ _ => false
  | QueueEvent.sendFinish _ _ => true

/-- Execution trace of the promise-chained send queue starting at a given
enqueue index and nonce state. -/
def sendQueueTraceFrom : NonceState → Nat → Nat → List QueueEvent
  | _, _, 0 => []
  | s, index, count + 1 =>
    QueueEvent.sendStart index s.next :: QueueEvent.sendFinish index s.next ::
      sendQueueTraceFrom ⟨s.next + 1⟩ (index + 1) count

/-- Execution trace of `count` sends enqueued back-to-back through
`enqueueSendTransaction`. -/
def sendQueueTrace (s : NonceState) (count : Nat) : List QueueEvent :=
  sendQueueTraceFrom s 0 count

/-! ## Run lifecycle and lane state (`ConfirmationRaceDemo`) -/

/-- `LaneStatus` union of the component. -/
inductive LaneStatus where
  | idle
  | sending
  | waiting
  | confirmed
  | error
  | stopped
deriving DecidableEq, Repr

/-- `LaneState` of the component (latencies as exact rationals). -/
structure LaneState where
  status : LaneStatus
  sendsAttempted : Nat
  confirmationsObserved : Nat
  latestLatencyMs : Option ℚ
  averageLatencyMs : Option ℚ
  lastConfirmationMethod : Option ConfirmationMethod
  lastError : Option (List Char)
  sendAnimationTick : Nat
  confirmAnimationTick : Nat
deriving DecidableEq

/-- One entry of `INITIAL_LANES()`. -/
def INITIAL_LANE_STATE : LaneState :=
  { status := LaneStatus.idle
    sendsAttempted := 0
    confirmationsObserved := 0
    latestLatencyMs := Option.none
    averageLatencyMs := Option.none
    lastConfirmationMethod := Option.none
    lastError := Option.none
    sendAnimationTick := 0
    confirmAnimationTick := 0 }

/-- The run-scoped mutable state of the component: the refs
(`runTokenRef`, `runDeadlineRef`, `stopTimerRef`,
`confirmAnimationUntilRef`, `inFlightRequestsRef`, `animationTimersRef`)
and the React state (`isRunning`, `remainingMs`, `fatalErrorMessage`,
`lanes`). -/
structure RaceState where
  runToken : Nat
  runDeadline : Option Int
  stopTimerArmed : Bool
  confirmAnimationUntil : DemoLane → ℚ
  inFlightRequests : Nat
  animationTimers : Nat
  isRunning : Bool
  remainingMs : Int
  fatalErrorMessage : Option (List Char)
  lanes : DemoLane → LaneState

/-- `isActiveRun(token)`: the token is current, a deadline exists, and
the wall clock is before it. -/
def isActiveRun (s : RaceState) (token : Nat) (nowMs : Int) : Bool :=
  decide (s.runToken = token) &&
    match s.runDeadline with
    | Option.none => false
    | some deadline => decide (nowMs < deadline)

/-- `updateLane(lane, updater)`. -/
def updateLane (s : RaceState) (lane : DemoLane) (updater : LaneState → LaneState) : RaceState :=
  { s with lanes := fun l => if l = lane then updater (s.lanes l) else s.lanes l }

/-- `setStoppedStatuses()`: force both lanes into the `stopped` status,
keeping every other lane field. -/
def setStoppedStatuses (s : RaceState) : RaceState :=
  { s with lanes := fun l => { s.lanes l with status := LaneStatus.stopped } }

/-- `stopRun()`: cancel the auto-stop timer, invalidate the token,
clear the deadline and the per-lane confirmation-to-send animation
scheduling state, abort in-flight requests, clear animation timers,
leave the running state, and force both lanes to `stopped`. -/
def stopRun (s : RaceState) : RaceState :=
  let s1 := { s with stopTimerArmed := false }
  let s2 := { s1 with
    runToken := s1.runToken + 1
    runDeadline := Option.none
    confirmAnimationUntil := fun _ => 0
    inFlightRequests := 0
    animationTimers := 0
    isRunning := false
    remainingMs := 0 }
  setStoppedStatuses s2

/-- The `while` guard of `runLaneLoop` under which a send request is
issued (re-checked before every cycle). -/
def laneLoopSendGuard (s : RaceState) (token : Nat) (nowMs : Int) : Bool :=
  isActiveRun s token nowMs

/-- The inner `while` guard of `runLaneLoop` under which a confirm poll
request is issued. -/
def laneLoopConfirmPollGuard (s : RaceState) (token : Nat) (nowMs : Int)
    (confirmed : Bool) : Bool :=
  isActiveRun s token nowMs && !confirmed

/-- Lane name as it is interpolated into the fatal popup message. -/
def laneDisplayName : DemoLane → List Char
  | DemoLane.flashblocks => ("flashblocks").toList
  | DemoLane.normal => ("normal").toList

/-- The fatal popup message template of the component. -/
def outOfGasFatalMessage (lane : DemoLane) : List Char :=
  ("Demo wallet is out of gas funds (").toList ++ laneDisplayName lane ++
    (" lane send failed). Fund the wallet and try again.").toList

/-- What the send-failure `catch` block of `runLaneLoop` decides to do
next. -/
inductive SendFailureOutcome where
  | exitSilently
  | haltRun
  | retrySend
deriving DecidableEq, Repr

/-- The `catch` block of `runLaneLoop`'s send step: exit silently when
the run is no longer live or the request was aborted; on an
insufficient-funds failure record the lane error, set the fatal popup
message and stop the whole run; on any other failure record the lane
error and retry after a short fixed backoff. Returns the state after the
block and the control-flow outcome. -/
def handleSendFailure (s : RaceState) (lane : DemoLane) (token : Nat) (nowMs : Int)
    (isAbort : Bool) (message : List Char) : RaceState × SendFailureOutcome :=
  if !isActiveRun s token nowMs || isAbort then (s, SendFailureOutcome.exitSilently)
  else if isInsufficientFundsError message then
    let s1 := updateLane s lane (fun current =>
      { current with status := LaneStatus.error, lastError := some message })
    let s2 := { s1 with fatalErrorMessage := some (outOfGasFatalMessage lane) }
    (stopRun s2, SendFailureOutcome.haltRun)
  else
    let s1 := updateLane s lane (fun current =>
      { current with status := LaneStatus.error, lastError := some message })
    (s1, SendFailureOutcome.retrySend)

/-- The confirmed-cycle lane update of `runLaneLoop`: enter `confirmed`,
bump the confirmation counters and animation tick, record the latency,
fold it into the running mean, and remember the confirming method. -/
def recordConfirmation (current : LaneState) (latencyMs : ℚ)
    (confirmationMethod : ConfirmationMethod) : LaneState :=
  let nextConfirmations := current.confirmationsObserved + 1
  let totalLatency :=
    (current.averageLatencyMs.getD 0) * (current.confirmationsObserved : ℚ) + latencyMs
  { current with
    status := LaneStatus.confirmed
    confirmationsObserved := nextConfirmations
    latestLatencyMs := some latencyMs
    averageLatencyMs := some (totalLatency / (nextConfirmations : ℚ))
    confirmAnimationTick := current.confirmAnimationTick + 1
    lastConfirmationMethod :=
      if confirmationMethod = ConfirmationMethod.none then Option.none
      else some confirmationMethod }

/-- Concrete run state used as input by witness instantiations: a live
run (token 1, deadline 5000ms) with both lanes at the initial baseline. -/
def sampleRaceState : RaceState :=
  { runToken := 1
    runDeadline := some 5000
    stopTimerArmed := true
    confirmAnimationUntil := fun _ => 0
    inFlightRequests := 2
    animationTimers := 0
    isRunning := true
    remainingMs := 5000
    fatalErrorMessage := Option.none
    lanes := fun _ => INITIAL_LANE_STATE }

/-! ## Run-start route validation (`/api/demo/start`) -/

/-- A JS number as seen by `typeof` and `Number.isFinite`. -/
inductive JsNumber where
  | finite (value : ℚ)
  | nan
  | posInf
  | negInf
deriving DecidableEq

/-- A JS value as classified by the duration validator: a number or
anything else (string, object, `undefined`, ...). -/
inductive JsValue where
  | number (value : JsNumber)
  | notNumber
deriving DecidableEq

/-- `MIN_DURATION_SECONDS`. -/
def MIN_DURATION_SECONDS : ℚ := 1

/-- `MAX_DURATION_SECONDS`. -/
def MAX_DURATION_SECONDS : ℚ := 60

/-- `parseDurationSeconds(value)`: `null` unless the value is a finite
number inside the accepted range. -/
def parseDurationSeconds (value : JsValue) : Option ℚ :=
  match value with
  | JsValue.notNumber => Option.none
  | JsValue.number JsNumber.nan => Option.none
  | JsValue.number JsNumber.posInf => Option.none
  | JsValue.number JsNumber.negInf => Option.none
  | JsValue.number (JsNumber.finite q) =>
    if q < MIN_DURATION_SECONDS ∨ q > MAX_DURATION_SECONDS then Option.none else some q

/-- JS `Math.round`. -/
def jsMathRound (q : ℚ) : Int :=
  Int.floor (q + 1 / 2)

/-- Outcome of the start route's `POST` handler before any streaming
happens: a 400 bad-request response, or an invocation of the run core
with the computed millisecond duration. -/
inductive StartRouteDecision where
  | badRequest
  | invokeCore (durationMs : Int)
deriving DecidableEq, Repr

/-- The `POST` handler of the start route up to the point where the run
core is invoked: reject unparseable JSON bodies (`none`) and invalid
durations with a 400 before touching the core. -/
def startRoutePost (body : Option JsValue) : StartRouteDecision :=
  match body with
  | Option.none => StartRouteDecision.badRequest
  | some value =>
    match parseDurationSeconds value with
    | Option.none => StartRouteDecision.badRequest
    | some durationSeconds =>
      StartRouteDecision.invokeCore (jsMathRound (durationSeconds * 1000))

/-! ## Lemmas about the spoof hash codec -/

theorem natToHexDigitsRevFuel_eq_digits (fuel : Nat) :
    ∀ n : Nat, n ≤ fuel → natToHexDigitsRevFuel fuel n = Nat.digits 16 n := by
  induction fuel with
  | zero =>
    intro n hn
    have : n = 0 := Nat.le_zero.mp hn
    subst this
    simp [natToHexDigitsRevFuel]
  | succ fuel ih =>
    intro n hn
    by_cases hzero : n = 0
    · subst hzero
      simp [natToHexDigitsRevFuel]
    · have hdiv : n / 16 ≤ fuel := by
        have := Nat.div_lt_self (Nat.pos_of_ne_zero hzero) (by norm_num : 1 < 16)
        omega
      rw [natToHexDigitsRevFuel, if_neg hzero, ih (n / 16) hdiv,
        Nat.digits_def' (by norm_num : (1 : Nat) < 16) (Nat.pos_of_ne_zero hzero)]

theorem natToHexDigitsRev_eq_digits (n : Nat) : natToHexDigitsRev n = Nat.digits 16 n :=
  natToHexDigitsRevFuel_eq_digits n n le_rfl

theorem hexCharValue_digitChar_fin :
    ∀ d : Fin 16, hexCharValue (Nat.digitChar d.1) = some d.1 := by decide

theorem hexCharValue_digitChar {d : Nat} (hd : d < 16) :
    hexCharValue (Nat.digitChar d) = some d :=
  hexCharValue_digitChar_fin ⟨d, hd⟩

theorem toLower_digitChar_fin :
    ∀ d : Fin 16, Char.toLower (Nat.digitChar d.1) = Nat.digitChar d.1 := by decide

theorem digitChar_ne_special_fin :
    ∀ d : Fin 16, Nat.digitChar d.1 ≠ 'x' ∧ Nat.digitChar d.1 ≠ 'X' ∧
      Nat.digitChar d.1 ≠ '-' ∧ Nat.digitChar d.1 ≠ '+' := by decide

theorem toLower_digitChar {d : Nat} (hd : d < 16) :
    Char.toLower (Nat.digitChar d) = Nat.digitChar d :=
  toLower_digitChar_fin ⟨d, hd⟩

theorem digitChar_ne_special {d : Nat} (hd : d < 16) :
    Nat.digitChar d ≠ 'x' ∧ Nat.digitChar d ≠ 'X' ∧
      Nat.digitChar d ≠ '-' ∧ Nat.digitChar d ≠ '+' :=
  digitChar_ne_special_fin ⟨d, hd⟩

theorem parseIntHexAux_eq_foldl (l : List Char) :
    ∀ acc : Nat, (∀ c ∈ l, (hexCharValue c).isSome) →
      parseIntHexAux l acc = l.foldl (fun a c => 16 * a + (hexCharValue c).getD 0) acc := by
  induction l with
  | nil => intro acc _; rfl
  | cons c rest ih =>
    intro acc h
    obtain ⟨d, hd⟩ := Option.isSome_iff_exists.mp (h c (by simp))
    simp only [parseIntHexAux, hd, List.foldl_cons, Option.getD_some]
    exact ih _ (fun x hx => h x (by simp [hx]))

theorem foldl_digitChar_map (ds : List Nat) (acc : Nat) (h : ∀ d ∈ ds, d < 16) :
    (ds.map Nat.digitChar).foldl (fun a c => 16 * a + (hexCharValue c).getD 0) acc =
      ds.foldl (fun a d => 16 * a + d) acc := by
  rw [List.foldl_map]
  refine List.foldl_ext _ _ _ (fun a d hd => ?_)
  rw [hexCharValue_digitChar (h d hd), Option.getD_some]

theorem foldl_hex_replicate_zero (k : Nat) (ds : List Nat) :
    (List.replicate k 0 ++ ds).foldl (fun a d => 16 * a + d) 0 =
      ds.foldl (fun a d => 16 * a + d) 0 := by
  induction k with
  | zero => rfl
  | succ k ih => simpa [List.replicate_succ] using ih

theorem foldr_hex_eq_ofDigits (L : List Nat) :
    L.foldr (fun d a => 16 * a + d) 0 = Nat.ofDigits 16 L := by
  induction L with
  | nil => simp
  | cons d L ih => simp [Nat.ofDigits_cons, ih]; ring

theorem foldl_reverse_digits (n : Nat) :
    ((Nat.digits 16 n).reverse).foldl (fun a d => 16 * a + d) 0 = n := by
  rw [List.foldl_reverse, foldr_hex_eq_ofDigits, Nat.ofDigits_digits]

theorem jsNatToStringHex_view (n : Nat) :
    ∃ ds : List Nat, (∀ d ∈ ds, d < 16) ∧ jsNatToStringHex n = ds.map Nat.digitChar ∧
      ds.foldl (fun a d => 16 * a + d) 0 = n := by
  by_cases hn : n = 0
  · subst hn
    exact ⟨[0], by simp, rfl, rfl⟩
  · refine ⟨(Nat.digits 16 n).reverse, ?_, ?_, foldl_reverse_digits n⟩
    · intro d hd
      exact Nat.digits_lt_base (by norm_num) (List.mem_reverse.mp hd)
    · rw [jsNatToStringHex, if_neg hn, natToHexDigitsRev_eq_digits]

theorem jsNatToStringHex_length_le (n : Nat) (h : n < 16 ^ 12) :
    (jsNatToStringHex n).length ≤ 12 := by
  by_cases hn : n = 0
  · subst hn; simp [jsNatToStringHex]
  · rw [jsNatToStringHex, if_neg hn, List.length_map, List.length_reverse,
      natToHexDigitsRev_eq_digits, Nat.digits_len 16 n (by norm_num) hn]
    have := (Nat.lt_pow_iff_log_lt (by norm_num : 1 < 16) hn).mp h
    omega

theorem jsPadStart_view (n : Nat) (h : n < 16 ^ 12) :
    ∃ ds : List Nat, (∀ d ∈ ds, d < 16) ∧ ds.length = 12 ∧
      jsPadStart 12 '0' (jsNatToStringHex n) = ds.map Nat.digitChar ∧
      ds.foldl (fun a d => 16 * a + d) 0 = n := by
  obtain ⟨ds, hlt, hmap, hfold⟩ := jsNatToStringHex_view n
  have hlen : ds.length ≤ 12 := by
    have := jsNatToStringHex_length_le n h
    rw [hmap, List.length_map] at this
    exact this
  refine ⟨List.replicate (12 - ds.length) 0 ++ ds, ?_, ?_, ?_, ?_⟩
  · intro d hd
    rcases List.mem_append.mp hd with hmem | hmem
    · rw [List.eq_of_mem_replicate hmem]; norm_num
    · exact hlt d hmem
  · rw [List.length_append, List.length_replicate]
    omega
  · rw [jsPadStart, hmap, List.map_append, List.map_replicate, List.length_map]
    rfl
  · rw [foldl_hex_replicate_zero, hfold]

theorem jsPadStart_length (n : Nat) (h : n < 16 ^ 12) :
    (jsPadStart 12 '0' (jsNatToStringHex n)).length = 12 := by
  obtain ⟨ds, _, hlen, hmap, _⟩ := jsPadStart_view n h
  rw [hmap, List.length_map, hlen]

theorem map_toLower_jsPadStart (n : Nat) (h : n < 16 ^ 12) :
    (jsPadStart 12 '0' (jsNatToStringHex n)).map Char.toLower =
      jsPadStart 12 '0' (jsNatToStringHex n) := by
  obtain ⟨ds, hlt, _, hmap, _⟩ := jsPadStart_view n h
  rw [hmap, List.map_map]
  refine List.map_congr_left (fun d hd => ?_)
  exact toLower_digitChar_fin ⟨d, hlt d hd⟩

theorem jsParseIntHexCore_digitList (ds : List Nat) (hlt : ∀ d ∈ ds, d < 16)
    (hlen : 2 ≤ ds.length) :
    jsParseIntHexCore (ds.map Nat.digitChar) =
      some (ds.foldl (fun a d => 16 * a + d) 0) := by
  cases ds with
  | nil => simp at hlen
  | cons d0 tail =>
  cases tail with
  | nil => simp at hlen
  | cons d1 rest =>
    have h0 : d0 < 16 := hlt d0 (by simp)
    have h1 : d1 < 16 := hlt d1 (by simp)
    have hstrip :
        stripHexPrefixChars (Nat.digitChar d0 :: Nat.digitChar d1 :: rest.map Nat.digitChar) =
          Nat.digitChar d0 :: Nat.digitChar d1 :: rest.map Nat.digitChar := by
      have hspec := digitChar_ne_special h1
      rw [stripHexPrefixChars, if_neg]
      rintro ⟨-, hx | hX⟩
      · exact hspec.1 hx
      · exact hspec.2.1 hX
    have hsome : (hexCharValue (Nat.digitChar d0)).isSome = true := by
      rw [hexCharValue_digitChar h0]; rfl
    rw [List.map_cons, List.map_cons]
    simp only [jsParseIntHexCore, hstrip]
    rw [if_pos hsome]
    have hall : ∀ c ∈ Nat.digitChar d0 :: Nat.digitChar d1 :: rest.map Nat.digitChar,
        (hexCharValue c).isSome := by
      intro c hc
      rcases List.mem_cons.mp hc with rfl | hc
      · exact hsome
      rcases List.mem_cons.mp hc with rfl | hc
      · rw [hexCharValue_digitChar h1]; rfl
      obtain ⟨d, hd, rfl⟩ := List.mem_map.mp hc
      rw [hexCharValue_digitChar (hlt d (by simp [hd]))]; rfl
    rw [parseIntHexAux_eq_foldl _ 0 hall]
    rw [show (Nat.digitChar d0 :: Nat.digitChar d1 :: rest.map Nat.digitChar) =
      (d0 :: d1 :: rest).map Nat.digitChar from rfl]
    rw [foldl_digitChar_map _ _ hlt]

theorem jsParseIntHex_digitList (ds : List Nat) (hlt : ∀ d ∈ ds, d < 16)
    (hlen : 2 ≤ ds.length) :
    jsParseIntHex (ds.map Nat.digitChar) =
      some ((ds.foldl (fun a d => 16 * a + d) 0 : Nat) : Int) := by
  cases ds with
  | nil => simp at hlen
  | cons d0 tail =>
  cases tail with
  | nil => simp at hlen
  | cons d1 rest =>
    have hspec := digitChar_ne_special (hlt d0 (by simp))
    rw [List.map_cons, List.map_cons, jsParseIntHex, if_neg hspec.2.2.1, if_neg hspec.2.2.2,
      ← List.map_cons, ← List.map_cons,
      jsParseIntHexCore_digitList (d0 :: d1 :: rest) hlt hlen]
    rfl

theorem jsParseIntHex_pad (n : Nat) (h : n < 16 ^ 12) :
    jsParseIntHex (jsPadStart 12 '0' (jsNatToStringHex n)) = some ((n : Nat) : Int) := by
  obtain ⟨ds, hlt, hlen, hmap, hfold⟩ := jsPadStart_view n h
  rw [hmap, jsParseIntHex_digitList ds hlt (by omega), hfold]

theorem spoofLaneCode_toLower (lane : DemoLane) :
    (SPOOF_LANE_CODE lane).map Char.toLower = SPOOF_LANE_CODE lane := by
  cases lane <;> decide

theorem spoofLaneCode_length (lane : DemoLane) : (SPOOF_LANE_CODE lane).length = 2 := by
  cases lane <;> rfl

/-- Round trip of the spoof hash codec: for any creation timestamp whose
floor fits in the 48-bit timestamp field, parsing the built hash recovers
the lane and the floored timestamp, whatever the random suffix is. -/
theorem parseSpoofTxHash_buildSpoofTxHash (lane : DemoLane) (t : ℚ) (rand : List Char)
    (h0 : 0 ≤ Int.floor t) (h48 : Int.floor t < 2 ^ 48) :
    parseSpoofTxHash (buildSpoofTxHash lane t rand) = some ⟨lane, Int.floor t⟩ := by
  set n : Nat := (Int.floor t).toNat with hn
  have hcast : ((n : Int)) = Int.floor t := Int.toNat_of_nonneg h0
  have hlt : n < 16 ^ 12 := by
    have h' : (n : Int) < 2 ^ 48 := by rw [hcast]; exact h48
    have h'' : n < 2 ^ 48 := by exact_mod_cast h'
    calc n < 2 ^ 48 := h''
      _ = 16 ^ 12 := by norm_num
  have hnum : jsNumToStringHex (Int.floor t) = jsNatToStringHex n := by
    rw [jsNumToStringHex, if_neg (by omega : ¬ Int.floor t < 0)]
  have hlenpad : (jsPadStart 12 '0' (jsNatToStringHex n)).length = 12 :=
    jsPadStart_length n hlt
  have hslice : jsSliceLast 12 (jsPadStart 12 '0' (jsNatToStringHex n)) =
      jsPadStart 12 '0' (jsNatToStringHex n) := by
    rw [jsSliceLast, hlenpad, Nat.sub_self, List.drop_zero]
  have hbuild : buildSpoofTxHash lane t rand =
      '0' :: 'x' :: (SPOOF_LANE_CODE lane ++
        (jsPadStart 12 '0' (jsNatToStringHex n) ++ rand)) := by
    simp only [buildSpoofTxHash, hnum, hslice, List.append_assoc]
  rw [hbuild, parseSpoofTxHash]
  have hdrop2 : (('0' :: 'x' :: (SPOOF_LANE_CODE lane ++
      (jsPadStart 12 '0' (jsNatToStringHex n) ++ rand))) : List Char).drop 2 =
      SPOOF_LANE_CODE lane ++ (jsPadStart 12 '0' (jsNatToStringHex n) ++ rand) := rfl
  rw [hdrop2, List.map_append, List.map_append, spoofLaneCode_toLower,
    map_toLower_jsPadStart n hlt]
  have htake2 : (SPOOF_LANE_CODE lane ++
      (jsPadStart 12 '0' (jsNatToStringHex n) ++ rand.map Char.toLower)).take 2 =
      SPOOF_LANE_CODE lane := by
    rw [← spoofLaneCode_length lane]
    exact List.take_left _ _
  have hdropCode : (SPOOF_LANE_CODE lane ++
      (jsPadStart 12 '0' (jsNatToStringHex n) ++ rand.map Char.toLower)).drop 2 =
      jsPadStart 12 '0' (jsNatToStringHex n) ++ rand.map Char.toLower := by
    rw [← spoofLaneCode_length lane]
    exact List.drop_left _ _
  have htakePad : (jsPadStart 12 '0' (jsNatToStringHex n) ++
      rand.map Char.toLower).take 12 = jsPadStart 12 '0' (jsNatToStringHex n) := by
    have h' := List.take_left (jsPadStart 12 '0' (jsNatToStringHex n)) (rand.map Char.toLower)
    rwa [hlenpad] at h'
  rw [htake2, hdropCode, htakePad, jsParseIntHex_pad n hlt]
  cases lane with
  | flashblocks =>
    simp only [SPOOF_LANE_CODE, if_true]
    exact congrArg (fun i => some (SpoofTx.mk DemoLane.flashblocks i)) hcast
  | normal =>
    simp only [SPOOF_LANE_CODE, if_true]
    exact congrArg (fun i => some (SpoofTx.mk DemoLane.normal i)) hcast

/-! ## Lemmas about metrics folding -/

theorem recordConfirmation_confirmations (st : LaneState) (l : ℚ) (m : ConfirmationMethod) :
    (recordConfirmation st l m).confirmationsObserved = st.confirmationsObserved + 1 := rfl

theorem recordConfirmation_avgTotal (st : LaneState) (l : ℚ) (m : ConfirmationMethod) :
    ((recordConfirmation st l m).averageLatencyMs.getD 0) *
        (((recordConfirmation st l m).confirmationsObserved : Nat) : ℚ) =
      (st.averageLatencyMs.getD 0) * ((st.confirmationsObserved : Nat) : ℚ) + l := by
  simp only [recordConfirmation, Option.getD_some]
  exact div_mul_cancel₀ _ (Nat.cast_ne_zero.mpr (Nat.succ_ne_zero st.confirmationsObserved))

theorem foldl_recordConfirmation_stats (m : ConfirmationMethod) (ls : List ℚ) :
    ∀ st : LaneState,
      ((ls.foldl (fun acc l => recordConfirmation acc l m) st).confirmationsObserved =
        st.confirmationsObserved + ls.length) ∧
      (((ls.foldl (fun acc l => recordConfirmation acc l m) st).averageLatencyMs.getD 0) *
          ((((ls.foldl (fun acc l => recordConfirmation acc l m) st).confirmationsObserved
            : Nat)) : ℚ) =
        (st.averageLatencyMs.getD 0) * ((st.confirmationsObserved : Nat) : ℚ) + ls.sum) := by
  induction ls with
  | nil => intro st; exact ⟨by simp, by simp⟩
  | cons l ls ih =>
    intro st
    constructor
    · rw [List.foldl_cons, (ih _).1, recordConfirmation_confirmations, List.length_cons]
      omega
    · rw [List.foldl_cons, (ih _).2, recordConfirmation_avgTotal, List.sum_cons]
      ring

theorem foldl_recordConfirmation_avg_isSome (m : ConfirmationMethod) (ls : List ℚ)
    (h : ls ≠ []) :
    ∀ st : LaneState,
      ∃ a : ℚ, (ls.foldl (fun acc l => recordConfirmation acc l m) st).averageLatencyMs =
        some a := by
  induction ls with
  | nil => cases h rfl
  | cons l ls ih =>
    intro st
    rw [List.foldl_cons]
    by_cases h' : ls = []
    · subst h'
      exact ⟨_, rfl⟩
    · exact ih h' _

/-! ## Lemmas about the serialized send queue -/

theorem sendQueueTraceFrom_starts (count : Nat) :
    ∀ (s : NonceState) (index : Nat),
      (sendQueueTraceFrom s index count).filterMap
          (fun e => match e with
            | QueueEvent.sendStart i x => some (i, x)
            | QueueEvent.sendFinish _ _ => Option.none) =
        (List.range count).map (fun j => (index + j, s.next + j)) := by
  induction count with
  | zero => intro s index; rfl
  | succ count ih =>
    intro s index
    rw [sendQueueTraceFrom, List.filterMap_cons, List.filterMap_cons]
    simp only []
    rw [ih ⟨s.next + 1⟩ (index + 1), List.range_succ_eq_map, List.map_cons, List.map_map]
    have hfeq : ((fun j => (index + j, s.next + j)) ∘ Nat.succ) =
        (fun j => (index + 1 + j, (NonceState.mk (s.next + 1)).next + j)) := by
      funext j
      simp only [Function.comp_apply, Nat.succ_eq_add_one, Prod.mk.injEq]
      omega
    rw [hfeq]
    simp

theorem sendQueueTraceFrom_oneInFlight (count : Nat) :
    ∀ (s : NonceState) (index k : Nat),
      ((sendQueueTraceFrom s index count).take k).countP isStartEvent ≤
        ((sendQueueTraceFrom s index count).take k).countP isFinishEvent + 1 := by
  induction count with
  | zero => intro s index k; simp [sendQueueTraceFrom]
  | succ count ih =>
    intro s index k
    rw [sendQueueTraceFrom]
    match k with
    | 0 => simp
    | 1 => simp [List.take_succ_cons, List.countP_cons, isStartEvent, isFinishEvent]
    | k + 2 =>
      simp only [List.take_succ_cons, List.countP_cons, isStartEvent, isFinishEvent]
      have := ih ⟨s.next + 1⟩ (index + 1) k
      omega

/-! ## Claim theorems -/

/-- C1: in spoof mode, for every lane and every spoof handle built by
that lane's send at integer creation time `t` (fitting the 48-bit
timestamp field), `checkLaneConfirmation` at time `now` reports
`confirmed = false` exactly while `now - t` is strictly below the lane's
configured spoof delay and `confirmed = true` from the delay onwards. -/
theorem claim_C1_spoof_confirmation_delay (lane : DemoLane) (t : Nat) (rand : List Char)
    (nowMs : Int) (h48 : t < 2 ^ 48) :
    ((nowMs - (t : Int) < (SPOOF_CONFIRMATION_DELAY_MS_BY_LANE lane : Int)) →
      (checkLaneConfirmationSpoof lane
        (sendLaneTransactionSpoof lane (t : ℚ) rand).txHash nowMs).confirmed = false) ∧
    (((SPOOF_CONFIRMATION_DELAY_MS_BY_LANE lane : Int) ≤ nowMs - (t : Int)) →
      (checkLaneConfirmationSpoof lane
        (sendLaneTransactionSpoof lane (t : ℚ) rand).txHash nowMs).confirmed = true) := by
  have hfloor : Int.floor ((t : Nat) : ℚ) = (t : Int) := Int.floor_natCast t
  have hparse : parseSpoofTxHash (buildSpoofTxHash lane ((t : Nat) : ℚ) rand) =
      some ⟨lane, (t : Int)⟩ := by
    have h := parseSpoofTxHash_buildSpoofTxHash lane ((t : Nat) : ℚ) rand
      (by rw [hfloor]; exact Int.natCast_nonneg t)
      (by rw [hfloor]; exact_mod_cast h48)
    rwa [hfloor] at h
  constructor
  · intro hlt
    simp [checkLaneConfirmationSpoof, sendLaneTransactionSpoof, hparse, hlt]
  · intro hge
    simp [checkLaneConfirmationSpoof, sendLaneTransactionSpoof, hparse, not_lt.mpr hge]

/-- Witness for C1 at a concrete send: flashblocks lane, creation time
1000ms; 500ms later the check is unconfirmed, 800ms later it is
confirmed. -/
theorem claim_C1_spoof_confirmation_delay_witness :
    (checkLaneConfirmationSpoof DemoLane.flashblocks
      (sendLaneTransactionSpoof DemoLane.flashblocks ((1000 : Nat) : ℚ) []).txHash
      1500).confirmed = false ∧
    (checkLaneConfirmationSpoof DemoLane.flashblocks
      (sendLaneTransactionSpoof DemoLane.flashblocks ((1000 : Nat) : ℚ) []).txHash
      1800).confirmed = true :=
  ⟨(claim_C1_spoof_confirmation_delay DemoLane.flashblocks 1000 [] 1500 (by decide)).1
      (by decide),
    (claim_C1_spoof_confirmation_delay DemoLane.flashblocks 1000 [] 1800 (by decide)).2
      (by decide)⟩

/-- C7: in spoof mode, any handle whose encoded lane does not match the
lane performing the check (including handles that decode to no lane at
all) is reported unconfirmed, regardless of elapsed time. -/
theorem claim_C7_spoof_lane_mismatch_unconfirmed (lane : DemoLane) (txHash : List Char)
    (nowMs : Int)
    (h : ∀ p : SpoofTx, parseSpoofTxHash txHash = some p → p.lane ≠ lane) :
    (checkLaneConfirmationSpoof lane txHash nowMs).confirmed = false := by
  cases hp : parseSpoofTxHash txHash with
  | none => simp [checkLaneConfirmationSpoof, hp]
  | some p => simp [checkLaneConfirmationSpoof, hp, h p hp]

/-- Witness for C7: a normal-lane spoof hash checked on the flashblocks
lane stays unconfirmed even long after both delays. -/
theorem claim_C7_spoof_lane_mismatch_unconfirmed_witness :
    (checkLaneConfirmationSpoof DemoLane.flashblocks
      (("0xf2000000000000").toList) 999999999).confirmed = false :=
  claim_C7_spoof_lane_mismatch_unconfirmed DemoLane.flashblocks
    (("0xf2000000000000").toList) 999999999
    (by
      intro p hp
      rw [show parseSpoofTxHash (("0xf2000000000000").toList) =
        some (⟨DemoLane.normal, 0⟩ : SpoofTx) from by decide] at hp
      cases hp
      decide)

/-- C10: parsing the spoof hash built from a lane and any creation
timestamp whose floor lies in `[0, 2^48)` recovers exactly that lane and
the floored timestamp, regardless of the random suffix. -/
theorem claim_C10_spoof_hash_roundtrip (lane : DemoLane) (t : ℚ) (rand : List Char)
    (h0 : 0 ≤ Int.floor t) (h48 : Int.floor t < 2 ^ 48) :
    parseSpoofTxHash (buildSpoofTxHash lane t rand) = some ⟨lane, Int.floor t⟩ :=
  parseSpoofTxHash_buildSpoofTxHash lane t rand h0 h48

/-- C2: one pass of the live submit closure — a first failure of the
nonce-desynchronization class triggers exactly one nonce reset and one
retry whose outcome (success or a second failure) is surfaced untouched;
a successful first attempt or a first failure of any other class runs the
underlying send once and performs no reset. -/
theorem claim_C2_nonce_resync_single_retry (attempt2 : Except JsThrown (List Char)) :
    (∀ txHash : List Char,
      sendWithNonceRecovery (Except.ok txHash) attempt2 = (Except.ok txHash, ⟨1, 0⟩)) ∧
    (∀ e : JsThrown, isNonceSyncError e = true →
      sendWithNonceRecovery (Except.error e) attempt2 = (attempt2, ⟨2, 1⟩)) ∧
    (∀ e : JsThrown, isNonceSyncError e = false →
      sendWithNonceRecovery (Except.error e) attempt2 = (Except.error e, ⟨1, 0⟩)) := by
  refine ⟨fun txHash => rfl, fun e he => ?_, fun e he => ?_⟩
  · simp [sendWithNonceRecovery, he]
  · simp [sendWithNonceRecovery, he]

/-- Witness for C2: two consecutive nonce-too-low failures surface the
second failure after exactly two send calls and one reset; a
non-nonce-class failure surfaces immediately with no reset. -/
theorem claim_C2_nonce_resync_single_retry_witness :
    sendWithNonceRecovery
        (Except.error (JsThrown.errorObj (("Nonce too low for account").toList)))
        (Except.error (JsThrown.errorObj (("nonce too low").toList))) =
      (Except.error (JsThrown.errorObj (("nonce too low").toList)), ⟨2, 1⟩) ∧
    sendWithNonceRecovery
        (Except.error (JsThrown.errorObj (("gas required exceeds allowance").toList)))
        (Except.ok (("0xabc").toList)) =
      (Except.error (JsThrown.errorObj (("gas required exceeds allowance").toList)), ⟨1, 0⟩) :=
  ⟨(claim_C2_nonce_resync_single_retry _).2.1 _ (by decide),
    (claim_C2_nonce_resync_single_retry _).2.2 _ (by decide)⟩

/-- C3 counterexample: in the latest revision, the flashblocks lane's
receipt poll reports `confirmed = true` for a receipt whose block height
is null, contradicting the claim that a receipt with a null block height
is not a confirmation. -/
theorem claim_C3_receipt_poll_counterexample :
    (checkLaneConfirmationLive DemoLane.flashblocks []
        (some ⟨Option.none⟩) Option.none).confirmed = true ∧
      (some (⟨Option.none⟩ : RpcTransactionReceipt)).bind RpcTransactionReceipt.blockNumber =
        Option.none :=
  ⟨rfl, rfl⟩

/-- C3 amended: the latest revision's receipt-poll lane (flashblocks in
live mode) reports `confirmed = true` iff the receipt query returns a
non-null receipt; the receipt's block height — which may be null — is
passed through as `blockNumber` but is not required for confirmation. -/
theorem claim_C3_receipt_poll_amended (txHash : List Char)
    (receipt : Option RpcTransactionReceipt) (latestBlock : Option RpcPendingBlock) :
    (checkLaneConfirmationLive DemoLane.flashblocks txHash receipt latestBlock).confirmed =
        receipt.isSome ∧
    (checkLaneConfirmationLive DemoLane.flashblocks txHash receipt latestBlock).blockNumber =
        receipt.bind RpcTransactionReceipt.blockNumber ∧
    (checkLaneConfirmationLive DemoLane.flashblocks txHash receipt latestBlock).method =
        (if receipt.isSome then ConfirmationMethod.receipt else ConfirmationMethod.none) := by
  cases receipt <;> simp [checkLaneConfirmationLive]

/-- C4: after `N ≥ 1` confirmed cycles with latencies `l1..lN` starting
from the initial lane state, `averageLatencyMs` equals `sum(li)/N`
exactly, `confirmationsObserved` equals `N`, and each step applies the
incremental running-mean update `(oldAvg * oldCount + latency) /
(oldCount + 1)` with no windowing. -/
theorem claim_C4_average_latency_running_mean (m : ConfirmationMethod) (ls : List ℚ)
    (h : ls ≠ []) :
    ((ls.foldl (fun acc l => recordConfirmation acc l m)
        INITIAL_LANE_STATE).confirmationsObserved = ls.length) ∧
    ((ls.foldl (fun acc l => recordConfirmation acc l m)
        INITIAL_LANE_STATE).averageLatencyMs = some (ls.sum / (ls.length : ℚ))) ∧
    (∀ (st : LaneState) (l : ℚ),
      (recordConfirmation st l m).averageLatencyMs =
        some (((st.averageLatencyMs.getD 0) * (st.confirmationsObserved : ℚ) + l) /
          ((st.confirmationsObserved : ℚ) + 1)) ∧
      (recordConfirmation st l m).confirmationsObserved = st.confirmationsObserved + 1) := by
  have hstats := foldl_recordConfirmation_stats m ls INITIAL_LANE_STATE
  have hcount : (ls.foldl (fun acc l => recordConfirmation acc l m)
      INITIAL_LANE_STATE).confirmationsObserved = ls.length := by
    rw [hstats.1]
    simp [INITIAL_LANE_STATE]
  refine ⟨hcount, ?_, ?_⟩
  · obtain ⟨a, ha⟩ := foldl_recordConfirmation_avg_isSome m ls h INITIAL_LANE_STATE
    have htot := hstats.2
    rw [ha, hcount] at htot
    simp only [INITIAL_LANE_STATE, Option.getD_some, Option.getD_none, Nat.cast_zero,
      mul_zero, zero_add] at htot
    rw [ha]
    have hlen : ((ls.length : Nat) : ℚ) ≠ 0 := by
      have hne : ls.length ≠ 0 := by
        intro hzero
        exact h (List.eq_nil_of_length_eq_zero hzero)
      exact_mod_cast hne
    rw [Option.some.injEq, eq_div_iff hlen]
    exact htot
  · intro st l
    refine ⟨?_, rfl⟩
    simp only [recordConfirmation, Option.some.injEq]
    push_cast
    ring_nf

/-- Witness for C4 at the concrete latency list `[100, 200, 600]`. -/
theorem claim_C4_average_latency_running_mean_witness :
    (([100, 200, 600] : List ℚ).foldl
        (fun acc l => recordConfirmation acc l ConfirmationMethod.receipt)
        INITIAL_LANE_STATE).confirmationsObserved = 3 ∧
    (([100, 200, 600] : List ℚ).foldl
        (fun acc l => recordConfirmation acc l ConfirmationMethod.receipt)
        INITIAL_LANE_STATE).averageLatencyMs =
      some ((([100, 200, 600] : List ℚ).sum) / ((([100, 200, 600] : List ℚ).length : ℚ))) :=
  ⟨(claim_C4_average_latency_running_mean ConfirmationMethod.receipt [100, 200, 600]
      (by decide)).1,
    (claim_C4_average_latency_running_mean ConfirmationMethod.receipt [100, 200, 600]
      (by decide)).2.1⟩

/-- C5: after `stopRun` returns, the token check fails for every token
and time (so neither lane loop can issue another send or confirm poll),
both lanes carry the terminal `stopped` status, the token was
invalidated by incrementing, and any later state whose token is at least
the post-stop token still rejects every token issued before the stop. -/
theorem claim_C5_stop_invalidates_run (s : RaceState) (token : Nat) (nowMs : Int)
    (lane : DemoLane) :
    isActiveRun (stopRun s) token nowMs = false ∧
    ((stopRun s).lanes lane).status = LaneStatus.stopped ∧
    (stopRun s).runToken = s.runToken + 1 ∧
    laneLoopSendGuard (stopRun s) token nowMs = false ∧
    (∀ confirmed : Bool, laneLoopConfirmPollGuard (stopRun s) token nowMs confirmed = false) ∧
    (∀ (s' : RaceState) (now' : Int), (stopRun s).runToken ≤ s'.runToken →
      token ≤ s.runToken → isActiveRun s' token now' = false) := by
  have hactive : isActiveRun (stopRun s) token nowMs = false := by
    simp [isActiveRun, stopRun, setStoppedStatuses]
  refine ⟨hactive, rfl, rfl, hactive, fun confirmed => ?_, ?_⟩
  · simp [laneLoopConfirmPollGuard, hactive]
  · intro s' now' htok hle
    rw [show (stopRun s).runToken = s.runToken + 1 from rfl] at htok
    have hne : s'.runToken ≠ token := by omega
    simp [isActiveRun, hne]

/-- Witness for C5 on the sample running state. -/
theorem claim_C5_stop_invalidates_run_witness :
    isActiveRun (stopRun sampleRaceState) 1 3000 = false ∧
    ((stopRun sampleRaceState).lanes DemoLane.normal).status = LaneStatus.stopped ∧
    isActiveRun (stopRun sampleRaceState) 1 999999 = false :=
  ⟨(claim_C5_stop_invalidates_run sampleRaceState 1 3000 DemoLane.normal).1,
    (claim_C5_stop_invalidates_run sampleRaceState 1 3000 DemoLane.normal).2.1,
    (claim_C5_stop_invalidates_run sampleRaceState 1 3000 DemoLane.normal).2.2.2.2.2
      (stopRun sampleRaceState) 999999 (le_refl _) (by decide)⟩

/-- C6: in the live-run send-failure handler, an insufficient-funds
failure records the lane's `lastError`, passes through the `error`
status, sets the fatal out-of-gas notification and stops the whole run
(both lanes end `stopped`); any other failure class only records the
lane-local error and retries, leaving the run token, the other lane and
the fatal notification untouched. -/
theorem claim_C6_insufficient_funds_fatal (s : RaceState) (lane : DemoLane) (token : Nat)
    (nowMs : Int) (message : List Char)
    (hactive : isActiveRun s token nowMs = true) :
    (isInsufficientFundsError message = true →
      (handleSendFailure s lane token nowMs false message).2 = SendFailureOutcome.haltRun ∧
      (∀ l : DemoLane,
        ((handleSendFailure s lane token nowMs false message).1.lanes l).status =
          LaneStatus.stopped) ∧
      ((handleSendFailure s lane token nowMs false message).1.lanes lane).lastError =
        some message ∧
      (handleSendFailure s lane token nowMs false message).1.fatalErrorMessage =
        some (outOfGasFatalMessage lane) ∧
      ((updateLane s lane (fun current =>
        { current with status := LaneStatus.error, lastError := some message })).lanes
          lane).status = LaneStatus.error) ∧
    (isInsufficientFundsError message = false →
      (handleSendFailure s lane token nowMs false message).2 = SendFailureOutcome.retrySend ∧
      ((handleSendFailure s lane token nowMs false message).1.lanes lane).status =
        LaneStatus.error ∧
      ((handleSendFailure s lane token nowMs false message).1.lanes lane).lastError =
        some message ∧
      (handleSendFailure s lane token nowMs false message).1.runToken = s.runToken ∧
      (handleSendFailure s lane token nowMs false message).1.fatalErrorMessage =
        s.fatalErrorMessage ∧
      (∀ l : DemoLane, l ≠ lane →
        (handleSendFailure s lane token nowMs false message).1.lanes l = s.lanes l)) := by
  constructor
  · intro hfunds
    refine ⟨?_, fun l => ?_, ?_, ?_, ?_⟩ <;>
      simp [handleSendFailure, hactive, hfunds, stopRun, setStoppedStatuses, updateLane]
  · intro hfunds
    refine ⟨?_, ?_, ?_, ?_, ?_, fun l hl => ?_⟩ <;>
      simp [handleSendFailure, hactive, hfunds, updateLane, *]

/-- Witness for C6: an insufficient-funds message halts the sample run
with both lanes stopped; a generic message only marks the lane for
retry. -/
theorem claim_C6_insufficient_funds_fatal_witness :
    (handleSendFailure sampleRaceState DemoLane.flashblocks 1 1000 false
        (("insufficient funds for gas * price + value").toList)).2 =
      SendFailureOutcome.haltRun ∧
    ((handleSendFailure sampleRaceState DemoLane.flashblocks 1 1000 false
        (("insufficient funds for gas * price + value").toList)).1.lanes
          DemoLane.normal).status = LaneStatus.stopped ∧
    (handleSendFailure sampleRaceState DemoLane.flashblocks 1 1000 false
        (("connection reset").toList)).2 = SendFailureOutcome.retrySend :=
  ⟨((claim_C6_insufficient_funds_fatal sampleRaceState DemoLane.flashblocks 1 1000
      (("insufficient funds for gas * price + value").toList) (by decide)).1
        (by decide)).1,
    ((claim_C6_insufficient_funds_fatal sampleRaceState DemoLane.flashblocks 1 1000
      (("insufficient funds for gas * price + value").toList) (by decide)).1
        (by decide)).2.1 DemoLane.normal,
    ((claim_C6_insufficient_funds_fatal sampleRaceState DemoLane.flashblocks 1 1000
      (("connection reset").toList) (by decide)).2 (by decide)).1⟩

/-- C8: the start route accepts a run duration iff the submitted value
is a finite number between 1 and 60 seconds inclusive; every other body
is answered with a bad-request decision before the run core is
invoked. -/
theorem claim_C8_duration_validation (body : Option JsValue) :
    ((∃ ms : Int, startRoutePost body = StartRouteDecision.invokeCore ms) ↔
      (∃ q : ℚ, body = some (JsValue.number (JsNumber.finite q)) ∧
        MIN_DURATION_SECONDS ≤ q ∧ q ≤ MAX_DURATION_SECONDS)) ∧
    ((¬ ∃ q : ℚ, body = some (JsValue.number (JsNumber.finite q)) ∧
        MIN_DURATION_SECONDS ≤ q ∧ q ≤ MAX_DURATION_SECONDS) →
      startRoutePost body = StartRouteDecision.badRequest) := by
  have hmain : (∃ ms : Int, startRoutePost body = StartRouteDecision.invokeCore ms) ↔
      (∃ q : ℚ, body = some (JsValue.number (JsNumber.finite q)) ∧
        MIN_DURATION_SECONDS ≤ q ∧ q ≤ MAX_DURATION_SECONDS) := by
    cases body with
    | none => simp [startRoutePost]
    | some v =>
      cases v with
      | notNumber => simp [startRoutePost, parseDurationSeconds]
      | number num =>
        cases num with
        | nan => simp [startRoutePost, parseDurationSeconds]
        | posInf => simp [startRoutePost, parseDurationSeconds]
        | negInf => simp [startRoutePost, parseDurationSeconds]
        | finite q =>
          by_cases hq : q < MIN_DURATION_SECONDS ∨ q > MAX_DURATION_SECONDS
          · rw [startRoutePost, parseDurationSeconds, if_pos hq]
            constructor
            · rintro ⟨ms, hms⟩
              cases hms
            · rintro ⟨q', hq', h1, h60⟩
              simp only [Option.some.injEq, JsValue.number.injEq,
                JsNumber.finite.injEq] at hq'
              subst hq'
              rcases hq with hlow | hhigh
              · exact absurd h1 (not_le.mpr hlow)
              · exact absurd h60 (not_le.mpr hhigh)
          · push_neg at hq
            rw [startRoutePost, parseDurationSeconds, if_neg (by push_neg; exact hq)]
            constructor
            · intro _
              exact ⟨q, rfl, hq.1, hq.2⟩
            · intro _
              exact ⟨jsMathRound (q * 1000), rfl⟩
  refine ⟨hmain, fun hno => ?_⟩
  cases hdec : startRoutePost body with
  | badRequest => rfl
  | invokeCore ms => exact absurd (hmain.mp ⟨ms, hdec⟩) hno

/-- Witness for C8: `NaN` and `0.5` are rejected, while `8` starts the
run. -/
theorem claim_C8_duration_validation_witness :
    startRoutePost (some (JsValue.number JsNumber.nan)) = StartRouteDecision.badRequest ∧
    startRoutePost (some (JsValue.number (JsNumber.finite (1 / 2)))) =
      StartRouteDecision.badRequest ∧
    startRoutePost (some (JsValue.number (JsNumber.finite 8))) =
      StartRouteDecision.invokeCore (jsMathRound (8 * 1000)) :=
  ⟨(claim_C8_duration_validation (some (JsValue.number JsNumber.nan))).2
      (by rintro ⟨q, hq, -, -⟩; simp at hq),
    (claim_C8_duration_validation (some (JsValue.number (JsNumber.finite (1 / 2))))).2
      (by
        rintro ⟨q, hq, h1, -⟩
        simp only [Option.some.injEq, JsValue.number.injEq, JsNumber.finite.injEq] at hq
        rw [← hq] at h1
        norm_num [MIN_DURATION_SECONDS] at h1),
    (by
      obtain ⟨ms, hms⟩ := (claim_C8_duration_validation
          (some (JsValue.number (JsNumber.finite 8)))).1.mpr
        ⟨8, rfl, by norm_num [MIN_DURATION_SECONDS], by norm_num [MAX_DURATION_SECONDS]⟩
      exact rfl)⟩

/-- C9: the serialized send queue runs at most one send at a time (in
every prefix of the trace, the number of started sends exceeds the
number of finished sends by at most one), executes sends in FIFO enqueue
order with consecutive nonces `s.next + j` for the `j`-th send, and for
two back-to-back sends the second nonce is exactly one above the
first. -/
theorem claim_C9_fifo_serialized_nonces (s : NonceState) (count : Nat) :
    (∀ k : Nat, ((sendQueueTrace s count).take k).countP isStartEvent ≤
      ((sendQueueTrace s count).take k).countP isFinishEvent + 1) ∧
    ((sendQueueTrace s count).filterMap
        (fun e => match e with
          | QueueEvent.sendStart i x => some (i, x)
          | QueueEvent.sendFinish _ _ => Option.none) =
      (List.range count).map (fun j => (j, s.next + j))) ∧
    (sendQueueTrace s 2 =
      [QueueEvent.sendStart 0 s.next, QueueEvent.sendFinish 0 s.next,
        QueueEvent.sendStart 1 (s.next + 1), QueueEvent.sendFinish 1 (s.next + 1)]) := by
  refine ⟨fun k => sendQueueTraceFrom_oneInFlight count s 0 k, ?_, rfl⟩
  have hstarts := sendQueueTraceFrom_starts count s 0
  rw [show (fun j => (j, s.next + j)) = (fun j => (0 + j, s.next + j)) from by
    funext j; simp]
  exact hstarts

/-- Witness for C10 at a concrete fractional timestamp and nonempty
random suffix. -/
theorem claim_C10_spoof_hash_roundtrip_witness :
    0 ≤ Int.floor ((5 / 2 : ℚ)) ∧ Int.floor ((5 / 2 : ℚ)) < 2 ^ 48 ∧
      parseSpoofTxHash (buildSpoofTxHash DemoLane.normal (5 / 2 : ℚ) (("ab").toList)) =
        some ⟨DemoLane.normal, Int.floor ((5 / 2 : ℚ))⟩ :=
  ⟨by norm_num, by norm_num,
    claim_C10_spoof_hash_roundtrip DemoLane.normal (5 / 2 : ℚ) (("ab").toList)
      (by norm_num) (by norm_num)⟩

end DemoTx
